import Mathlib

/-!
Shallow embedding of `BaikalStandalone/Application/material_explorer.cpp`
(the `MaterialExplorer` panel of the Baikal standalone renderer GUI).

The file under verification lists the enabled layers of a `UberV2Material`,
draws a node-graph canvas for the expression tree of a selected material
input, and relays node drags back into the shared `GraphScheme` model.

Modelling conventions:
* host-toolkit floats (`float`, `ImVec2` components) are modelled as rationals;
* the per-frame inputs delivered by the host UI toolkit (which selectable was
  clicked, which item is active or hovered, the mouse drag state and delta) are
  gathered in a `FrameInput` record, and the function-local `static` variables
  of `DrawExplorer` in a `Statics` record;
* types declared outside this translation unit (`UberV2Material`,
  `GraphScheme`, `UberTree`, the layer-flag enumeration) are modelled from the
  specification, as noted on each of them.
-/

/-- The host UI toolkit's 2-d vector; `float` components modelled as `ℚ`. -/
structure ImVec2 where
  x : ℚ
  y : ℚ
  deriving DecidableEq

/-- `operator+` on `ImVec2`, defined at the top of the source file. -/
instance : Add ImVec2 :=
  ⟨fun lhs rhs => ImVec2.mk (lhs.x + rhs.x) (lhs.y + rhs.y)⟩

/-- `operator-` on `ImVec2`, defined at the top of the source file. -/
instance : Sub ImVec2 :=
  ⟨fun lhs rhs => ImVec2.mk (lhs.x - rhs.x) (lhs.y - rhs.y)⟩

/-- The host UI toolkit's 4-d vector (used for node colors). -/
structure ImVec4 where
  x : ℚ
  y : ℚ
  z : ℚ
  w : ℚ
  deriving DecidableEq

/-- `RadeonRays::int2`: a pair of machine integers, modelled as `Int`. -/
structure int2 where
  x : Int
  y : Int
  deriving DecidableEq

/-- C-style truncation toward zero of a rational, the behaviour of the
`(int)` cast applied to the (float-valued) mouse delta in the source.
`Int.tdiv` truncates toward zero and `q.den` is positive. -/
def cppTrunc (q : ℚ) : Int :=
  Int.tdiv q.num (q.den : Int)

/-- Modelled from the spec: the material layer flags of `UberV2Material`
(declared in a header outside this translation unit).  Per the glossary, a
material layer is "a named shading component (emission, diffuse, reflection,
refraction, coating, subsurface scattering, transparency, shading-normal)
that may be enabled/disabled via a bitmask on a material". -/
inductive UberV2Material.Layers where
  | kEmissionLayer
  | kTransparencyLayer
  | kCoatingLayer
  | kReflectionLayer
  | kDiffuseLayer
  | kRefractionLayer
  | kSSSLayer
  | kShadingNormalLayer
  deriving DecidableEq, Fintype

/-- Modelled from the spec: the numeric bitmask value of each layer flag —
distinct single bits, so that each layer "may be enabled/disabled via a
bitmask".  This is also the value of the `static_cast<std::uint32_t>` applied
to a flag inside the constructor's `find_layer` lambda. -/
def UberV2Material.Layers.flagVal : UberV2Material.Layers → Nat
  | .kEmissionLayer => 1
  | .kTransparencyLayer => 2
  | .kCoatingLayer => 4
  | .kReflectionLayer => 8
  | .kDiffuseLayer => 16
  | .kRefractionLayer => 32
  | .kSSSLayer => 64
  | .kShadingNormalLayer => 128

/-- The value of `GetInputValue(name)`: only its `input_map_value` member is
used by this file.  `IM` is the (external) type of input maps. -/
structure InputValue (IM : Type) where
  input_map_value : IM

/-- Modelled from the spec: the slice of `UberV2Material` used by this file —
`GetLayers()` returns the enabled-layer bitmask, and
`GetInputValue(name).input_map_value` is "a graph of named, connected
value-producing nodes feeding a material's shading parameters". -/
structure UberV2Material (IM : Type) where
  GetLayers : Nat
  GetInputValue : String → InputValue IM

/-- Modelled from the spec: `UberTree::Create` wraps an input map as an
expression tree; the tree's internals are external to this file, so the
constructor is kept opaque. -/
inductive UberTree (IM : Type) where
  | Create : IM → UberTree IM
  deriving DecidableEq

/-- Modelled from the spec: a node of the shared `GraphScheme` model, with the
fields this file reads (`id`, `pos`, `size`). -/
structure GNode where
  id : Int
  pos : int2
  size : int2
  deriving DecidableEq

/-- Modelled from the spec: the shared graph model over the expression tree.
`tree` and `origin` record the arguments of the `GraphScheme::Create` call
that built the scheme; `nodes` is the current (mutable) node set. -/
structure GraphScheme (IM : Type) where
  tree : UberTree IM
  origin : int2
  nodes : List GNode

/-- Modelled from the spec: `GraphScheme::Create` builds a node graph from an
expression tree.  The node layout it computes is external to this file and is
therefore a parameter `layout`. -/
def GraphScheme.Create {IM : Type} (layout : UberTree IM → int2 → List GNode)
    (t : UberTree IM) (p : int2) : GraphScheme IM :=
  { tree := t, origin := p, nodes := layout t p }

/-- Modelled from the spec: `GraphScheme::GetNodes` returns the graph's nodes. -/
def GraphScheme.GetNodes {IM : Type} (g : GraphScheme IM) : List GNode :=
  g.nodes

/-- Modelled from the spec: `GraphScheme::UpdateNodePos(id, pos)` relays a user
edit into the shared graph model by setting the position of the node with the
given id. -/
def GraphScheme.UpdateNodePos {IM : Type} (g : GraphScheme IM)
    (id : Int) (p : int2) : GraphScheme IM :=
  { g with nodes := g.nodes.map fun n => if n.id = id then { n with pos := p } else n }

/-- `MaterialExplorer::LayerDesc`: a layer flag paired with the names of the
material inputs belonging to that layer. -/
abbrev MaterialExplorer.LayerDesc : Type :=
  UberV2Material.Layers × List String

/-- The fields of `MaterialExplorer`: the material being explored, the
collected descriptors of its enabled layers, the currently selected input
name, and the (initially null) graph scheme. -/
structure MaterialExplorer (IM : Type) where
  m_material : UberV2Material IM
  m_layers : List MaterialExplorer.LayerDesc
  m_selected_input : String
  m_graph : Option (GraphScheme IM)

open UberV2Material (Layers)
open UberV2Material.Layers

/-- `MaterialExplorer::GetUberLayersDesc()`: the static table associating each
layer flag with its input names, in the source's order. -/
def MaterialExplorer.GetUberLayersDesc : List MaterialExplorer.LayerDesc :=
  [ (kEmissionLayer,
      ["uberv2.emission.color"]),
    (kCoatingLayer,
      ["uberv2.coating.color", "uberv2.coating.ior"]),
    (kReflectionLayer,
      ["uberv2.reflection.color",
       "uberv2.reflection.roughness",
       "uberv2.reflection.anisotropy",
       "uberv2.reflection.anisotropy_rotation",
       "uberv2.reflection.ior",
       "uberv2.reflection.metalness"]),
    (kDiffuseLayer,
      ["uberv2.diffuse.color"]),
    (kRefractionLayer,
      ["uberv2.refraction.color",
       "uberv2.refraction.roughness",
       "uberv2.refraction.ior"]),
    (kTransparencyLayer,
      ["uberv2.transparency"]),
    (kShadingNormalLayer,
      ["uberv2.shading_normal"]),
    (kSSSLayer,
      ["uberv2.sss.absorption_color",
       "uberv2.sss.scatter_color",
       "uberv2.sss.subsurface_color",
       "uberv2.sss.absorption_distance",
       "uberv2.sss.scatter_distance",
       "uberv2.sss.scatter_direction"]) ]

/-- The constructor's `find_layer` lambda: the first element of `layers_desc`
whose flag value (cast to `uint32`) equals the flag searched for.  In the
source the result of `std::find_if` is dereferenced unconditionally —
undefined behaviour when no element matches — so the absent case is modelled
by `Option.none`. -/
def MaterialExplorer.find_layer (layers_desc : List MaterialExplorer.LayerDesc)
    (layers : Nat) : Option MaterialExplorer.LayerDesc :=
  layers_desc.find? fun desc => desc.1.flagVal == layers

/-- The body of the constructor's "collect all supported layers" block: for
each of the eight flag tests, when `layers` has the flag set, push the
descriptor found by `find_layer`, in the source's test order. -/
def MaterialExplorer.collectLayers (layers : Nat) : List MaterialExplorer.LayerDesc :=
  let layers_desc := MaterialExplorer.GetUberLayersDesc
  let fl := fun f => (MaterialExplorer.find_layer layers_desc f).toList
  (if layers &&& kEmissionLayer.flagVal ≠ 0 then fl kEmissionLayer.flagVal else []) ++
  (if layers &&& kTransparencyLayer.flagVal ≠ 0 then fl kTransparencyLayer.flagVal else []) ++
  (if layers &&& kCoatingLayer.flagVal ≠ 0 then fl kCoatingLayer.flagVal else []) ++
  (if layers &&& kReflectionLayer.flagVal ≠ 0 then fl kReflectionLayer.flagVal else []) ++
  (if layers &&& kDiffuseLayer.flagVal ≠ 0 then fl kDiffuseLayer.flagVal else []) ++
  (if layers &&& kRefractionLayer.flagVal ≠ 0 then fl kRefractionLayer.flagVal else []) ++
  (if layers &&& kSSSLayer.flagVal ≠ 0 then fl kSSSLayer.flagVal else []) ++
  (if layers &&& kShadingNormalLayer.flagVal ≠ 0 then fl kShadingNormalLayer.flagVal else [])

/-- `MaterialExplorer::MaterialExplorer(material)`: store the material and
collect the descriptors of its enabled layers; `m_selected_input` is
default-initialised to the empty string and `m_graph` to null. -/
def MaterialExplorer.init {IM : Type} (material : UberV2Material IM) :
    MaterialExplorer IM :=
  { m_material := material
    m_layers := MaterialExplorer.collectLayers material.GetLayers
    m_selected_input := ""
    m_graph := none }

/-- `MaterialExplorer::Create(material)`: allocates a `MaterialExplorerConcrete`,
which just runs the `MaterialExplorer` constructor. -/
def MaterialExplorer.Create {IM : Type} (material : UberV2Material IM) :
    MaterialExplorer IM :=
  MaterialExplorer.init material

/-- The function-local constant `left_side_width = 150` of `DrawExplorer`. -/
def left_side_width : Int := 150

/-- The function-local `static` variables of `DrawExplorer`, which persist
between frames: `show_grid`, `input_selected` and `scrolling`. -/
structure Statics where
  show_grid : Bool
  input_selected : Int
  scrolling : ImVec2
  deriving DecidableEq

/-- The initial values of `DrawExplorer`'s `static` variables:
`show_grid = true`, `input_selected = -1`, `scrolling = (0, 0)`. -/
def initialStatics : Statics :=
  { show_grid := true, input_selected := -1, scrolling := ImVec2.mk 0 0 }

/-- The per-frame inputs `DrawExplorer` polls from the host UI toolkit:
`selectable_clicked i` is the return value of the `i`-th `ImGui::Selectable`
in the layers list, `checkbox_clicked` whether the "Show grid" checkbox was
toggled, `item_active i` the value of `ImGui::IsItemActive()` for the `i`-th
node's invisible button, `mouse_dragging_left` / `mouse_dragging_middle` the
values of `ImGui::IsMouseDragging(0)` / `ImGui::IsMouseDragging(2, 0.0f)`,
`window_hovered` / `any_item_active` the values of `ImGui::IsWindowHovered()`
/ `ImGui::IsAnyItemActive()`, and `mouse_delta` the value of
`ImGui::GetIO().MouseDelta`. -/
structure FrameInput where
  selectable_clicked : Nat → Bool
  checkbox_clicked : Bool
  item_active : Nat → Bool
  mouse_dragging_left : Bool
  mouse_dragging_middle : Bool
  window_hovered : Bool
  any_item_active : Bool
  mouse_delta : ImVec2

/-- The local state of `DrawExplorer`'s layers-list loop: the running counter
`selected_id`, the `static` selection index `input_selected`, and the local
`input_name` of the input clicked this frame (empty when none). -/
structure LoopState where
  selected_id : Nat
  input_selected : Int
  input_name : String
  deriving DecidableEq

/-- The inner loop `for (const auto& input : layer.second)`: draw one
`ImGui::Selectable` per input name; when it reports a click, record the
selection index and the input's name; increment `selected_id`.  The second
component returns the `(selected_id, label)` of each `Selectable` drawn, in
drawing order, so the list drawn on screen is visible to the theorems. -/
def drawInputs (clicked : Nat → Bool) : List String → LoopState → LoopState × List (Nat × String)
  | [], s => (s, [])
  | input :: rest, s =>
    let s1 := if clicked s.selected_id then
        { s with input_selected := (s.selected_id : Int), input_name := input }
      else s
    let r := drawInputs clicked rest { s1 with selected_id := s1.selected_id + 1 }
    (r.1, (s.selected_id, input) :: r.2)

/-- The outer loop `for (const auto& layer : m_layers)` of the layers list. -/
def drawLayers (clicked : Nat → Bool) :
    List MaterialExplorer.LayerDesc → LoopState → LoopState × List (Nat × String)
  | [], s => (s, [])
  | layer :: rest, s =>
    let r1 := drawInputs clicked layer.2 s
    let r2 := drawLayers clicked rest r1.1
    (r2.1, r1.2 ++ r2.2)

/-- The value of the local `input_name` after the layers-list loop: the name
of the input clicked this frame, or the empty string when none was clicked. -/
def clickedName {IM : Type} (s : MaterialExplorer IM) (st : Statics)
    (fi : FrameInput) : String :=
  (drawLayers fi.selectable_clicked s.m_layers
    { selected_id := 0, input_selected := st.input_selected, input_name := "" }).1.input_name

/-- The graph-rebuild conditional of `DrawExplorer`: when `input_name` is
non-empty and differs from `m_selected_input`, rebuild `m_graph` as
`GraphScheme::Create(UberTree::Create(input_map), int2(left_side_width + 10, 100))`
over the selected input's `input_map_value`, and record the selection. -/
def rebuildPhase {IM : Type} (layout : UberTree IM → int2 → List GNode)
    (s : MaterialExplorer IM) (input_name : String) : MaterialExplorer IM :=
  if input_name ≠ "" ∧ s.m_selected_input ≠ input_name then
    { s with
      m_graph := some (GraphScheme.Create layout
        (UberTree.Create (s.m_material.GetInputValue input_name).input_map_value)
        (int2.mk (left_side_width + 10) 100))
      m_selected_input := input_name }
  else s

/-- One iteration of the node-display loop, restricted to its state effect:
when the node's invisible button is active and the left mouse button is being
dragged, relay the move via `m_graph->UpdateNodePos(node.id, new_pos)` with
`new_pos = int2(node.pos.x + (int)delta.x, node.pos.y + (int)delta.y)`. -/
def dragStep {IM : Type} (fi : FrameInput) (idx : Nat) (node : GNode)
    (g : GraphScheme IM) : GraphScheme IM :=
  if fi.item_active idx ∧ fi.mouse_dragging_left then
    g.UpdateNodePos node.id
      (int2.mk (node.pos.x + cppTrunc fi.mouse_delta.x)
               (node.pos.y + cppTrunc fi.mouse_delta.y))
  else g

/-- The node-display loop `for (const auto& node : nodes)`: iterate over the
snapshot `m_graph->GetNodes()`, applying each node's drag effect. -/
def dragLoop {IM : Type} (fi : FrameInput) (g : GraphScheme IM) : GraphScheme IM :=
  (g.GetNodes.enum).foldl (fun acc p => dragStep fi p.1 p.2 acc) g

/-- The `if (m_graph)` guard around the node-display loop. -/
def dragPhase {IM : Type} (fi : FrameInput) :
    Option (GraphScheme IM) → Option (GraphScheme IM)
  | none => none
  | some g => some (dragLoop fi g)

/-- `MaterialExplorer::DrawExplorer(win_size)`, restricted to its effect on
the explorer's fields, the shared graph model and the `static` locals (pure
drawing calls — grid lines, rectangles, labels — have no state effect):
run the layers-list loop, toggle `show_grid` if the checkbox was clicked,
rebuild the graph on a selection change, run the node-display loop with its
drag relay, then update `scrolling` on a middle-button drag over the canvas. -/
def DrawExplorer {IM : Type} (layout : UberTree IM → int2 → List GNode)
    (s : MaterialExplorer IM) (st : Statics) (fi : FrameInput) :
    MaterialExplorer IM × Statics :=
  let ls := (drawLayers fi.selectable_clicked s.m_layers
    { selected_id := 0, input_selected := st.input_selected, input_name := "" }).1
  let show_grid1 := if fi.checkbox_clicked then !st.show_grid else st.show_grid
  let s1 := rebuildPhase layout s ls.input_name
  let s2 := { s1 with m_graph := dragPhase fi s1.m_graph }
  let scrolling1 :=
    if fi.window_hovered ∧ ¬fi.any_item_active ∧ fi.mouse_dragging_middle then
      st.scrolling + fi.mouse_delta
    else st.scrolling
  (s2, { show_grid := show_grid1, input_selected := ls.input_selected,
         scrolling := scrolling1 })

/-- `MaterialExplorer::Node`: the node type of this file's own canvas helper,
with the fields used by the source (`size` is default-initialised). -/
structure MaterialExplorer.Node where
  id : Int
  name : String
  pos : ImVec2
  size : ImVec2
  value : ℚ
  color : ImVec4
  inputs_count : Int
  outputs_count : Int
  deriving DecidableEq

/-- `MaterialExplorer::Node::GetInputSlotPos(slot_no)`:
`ImVec2(pos.x, pos.y + size.y * ((float)slot_no + 1) / ((float)inputs_count + 1))`. -/
def MaterialExplorer.Node.GetInputSlotPos (n : MaterialExplorer.Node)
    (slot_no : Int) : ImVec2 :=
  ImVec2.mk n.pos.x
    (n.pos.y + n.size.y * ((slot_no : ℚ) + 1) / ((n.inputs_count : ℚ) + 1))

/-- `MaterialExplorer::Node::GetOutputSlotPos(slot_no)`:
`ImVec2(pos.x + size.x, pos.y + size.y * ((float)slot_no + 1) / ((float)outputs_count + 1))`. -/
def MaterialExplorer.Node.GetOutputSlotPos (n : MaterialExplorer.Node)
    (slot_no : Int) : ImVec2 :=
  ImVec2.mk (n.pos.x + n.size.x)
    (n.pos.y + n.size.y * ((slot_no : ℚ) + 1) / ((n.outputs_count : ℚ) + 1))

/-- `MaterialExplorer::NodeLink`: a link between two node slots. -/
structure MaterialExplorer.NodeLink where
  input_id : Int
  input_slot : Int
  output_id : Int
  output_slot : Int
  deriving DecidableEq

----------------------------------------------------------------
-- Concrete evaluation fixtures
----------------------------------------------------------------

/-- A concrete canvas node used to evaluate the slot-position functions. -/
def wNode : MaterialExplorer.Node :=
  { id := 1, name := "diffuse", pos := ImVec2.mk 0 0, size := ImVec2.mk 5 10,
    value := 0, color := ImVec4.mk 0 0 0 0, inputs_count := 2, outputs_count := 1 }

/-- A concrete node layout (the external `GraphScheme::Create` computation). -/
def wLayout : UberTree Nat → int2 → List GNode :=
  fun _ p => [{ id := 1, pos := p, size := int2.mk 10 10 }]

/-- A concrete material: diffuse layer enabled, every input map the value 7. -/
def wMaterial : UberV2Material Nat :=
  { GetLayers := 16, GetInputValue := fun _ => { input_map_value := 7 } }

/-- The explorer built over `wMaterial` by the constructor. -/
def wExplorer : MaterialExplorer Nat :=
  MaterialExplorer.init wMaterial

/-- A frame in which the first selectable of the layers list is clicked and
nothing else happens. -/
def wFrameClick : FrameInput :=
  { selectable_clicked := fun i => i == 0, checkbox_clicked := false,
    item_active := fun _ => false, mouse_dragging_left := false,
    mouse_dragging_middle := false, window_hovered := false,
    any_item_active := false, mouse_delta := ImVec2.mk 0 0 }

/-- A frame in which nothing is clicked or dragged. -/
def wFrameIdle : FrameInput :=
  { selectable_clicked := fun _ => false, checkbox_clicked := false,
    item_active := fun _ => false, mouse_dragging_left := false,
    mouse_dragging_middle := false, window_hovered := false,
    any_item_active := false, mouse_delta := ImVec2.mk 0 0 }

/-- A frame in which the node under the cursor is active and the left mouse
button is dragged by (3, 4). -/
def wFrameDrag : FrameInput :=
  { selectable_clicked := fun _ => false, checkbox_clicked := false,
    item_active := fun _ => true, mouse_dragging_left := true,
    mouse_dragging_middle := false, window_hovered := false,
    any_item_active := true, mouse_delta := ImVec2.mk 3 4 }

/-- A concrete graph scheme with one node, used to evaluate the drag relay. -/
def wGraph : GraphScheme Nat :=
  { tree := UberTree.Create 7, origin := int2.mk 160 100,
    nodes := [{ id := 1, pos := int2.mk 2 3, size := int2.mk 10 10 }] }

----------------------------------------------------------------
-- Theorems
----------------------------------------------------------------

/-- Position of an input/output slot strictly inside the node's vertical
extent, in the exact arithmetic shape of `GetInputSlotPos`. -/
theorem slot_y_strictly_between (py sy : ℚ) (s c : Int)
    (hs : 0 ≤ s) (hsc : s < c) (hsy : 0 < sy) :
    py < py + sy * ((s : ℚ) + 1) / ((c : ℚ) + 1) ∧
    py + sy * ((s : ℚ) + 1) / ((c : ℚ) + 1) < py + sy := by
  have hc0 : (0 : ℚ) ≤ (c : ℚ) := by
    have : (0 : Int) ≤ c := le_trans hs (le_of_lt hsc)
    exact_mod_cast this
  have hc1 : (0 : ℚ) < (c : ℚ) + 1 := by linarith
  have hs1 : (0 : ℚ) < (s : ℚ) + 1 := by
    have : (0 : ℚ) ≤ (s : ℚ) := by exact_mod_cast hs
    linarith
  have hsc1 : (s : ℚ) + 1 ≤ (c : ℚ) := by
    have : s + 1 ≤ c := hsc
    exact_mod_cast this
  have hr0 : (0 : ℚ) < ((s : ℚ) + 1) / ((c : ℚ) + 1) := div_pos hs1 hc1
  have hr1 : ((s : ℚ) + 1) / ((c : ℚ) + 1) < 1 := (div_lt_one hc1).mpr (by linarith)
  have h0 : 0 < sy * (((s : ℚ) + 1) / ((c : ℚ) + 1)) := mul_pos hsy hr0
  have h1 : sy * (((s : ℚ) + 1) / ((c : ℚ) + 1)) < sy := by
    have := mul_lt_mul_of_pos_left hr1 hsy
    simpa using this
  rw [mul_div_assoc]
  constructor <;> linarith

/-- C8: For every node with `inputs_count ≥ 0` and `outputs_count ≥ 0`,
`Node::GetInputSlotPos` and `Node::GetOutputSlotPos` are well-defined (the
divisors `inputs_count + 1` and `outputs_count + 1` are never zero), and for
every `slot_no` with `0 ≤ slot_no < inputs_count` (resp. `outputs_count`) and
positive `size.y`, the returned point lies on the node's left (resp. right)
edge with a `y` coordinate strictly between `pos.y` and `pos.y + size.y`,
with consecutive slots evenly spaced by `size.y / (count + 1)`. -/
theorem Node_slot_positions_well_defined (n : MaterialExplorer.Node) (slot_no : Int)
    (hin : 0 ≤ n.inputs_count) (hout : 0 ≤ n.outputs_count) :
    ((n.inputs_count : ℚ) + 1 ≠ 0 ∧ (n.outputs_count : ℚ) + 1 ≠ 0) ∧
    (0 ≤ slot_no → slot_no < n.inputs_count → 0 < n.size.y →
      (n.GetInputSlotPos slot_no).x = n.pos.x ∧
      n.pos.y < (n.GetInputSlotPos slot_no).y ∧
      (n.GetInputSlotPos slot_no).y < n.pos.y + n.size.y) ∧
    (0 ≤ slot_no → slot_no < n.outputs_count → 0 < n.size.y →
      (n.GetOutputSlotPos slot_no).x = n.pos.x + n.size.x ∧
      n.pos.y < (n.GetOutputSlotPos slot_no).y ∧
      (n.GetOutputSlotPos slot_no).y < n.pos.y + n.size.y) ∧
    ((n.GetInputSlotPos (slot_no + 1)).y - (n.GetInputSlotPos slot_no).y
        = n.size.y / ((n.inputs_count : ℚ) + 1) ∧
     (n.GetOutputSlotPos (slot_no + 1)).y - (n.GetOutputSlotPos slot_no).y
        = n.size.y / ((n.outputs_count : ℚ) + 1)) := by
  have hinq : (0 : ℚ) ≤ (n.inputs_count : ℚ) := by exact_mod_cast hin
  have houtq : (0 : ℚ) ≤ (n.outputs_count : ℚ) := by exact_mod_cast hout
  have hinne : (n.inputs_count : ℚ) + 1 ≠ 0 := by linarith
  have houtne : (n.outputs_count : ℚ) + 1 ≠ 0 := by linarith
  refine ⟨⟨hinne, houtne⟩, ?_, ?_, ?_, ?_⟩
  · intro h0 h1 h2
    refine ⟨rfl, ?_⟩
    exact slot_y_strictly_between n.pos.y n.size.y slot_no n.inputs_count h0 h1 h2
  · intro h0 h1 h2
    refine ⟨rfl, ?_⟩
    exact slot_y_strictly_between n.pos.y n.size.y slot_no n.outputs_count h0 h1 h2
  · show n.pos.y + n.size.y * (((slot_no + 1 : Int) : ℚ) + 1) / ((n.inputs_count : ℚ) + 1)
        - (n.pos.y + n.size.y * ((slot_no : ℚ) + 1) / ((n.inputs_count : ℚ) + 1))
        = n.size.y / ((n.inputs_count : ℚ) + 1)
    push_cast
    field_simp
    ring
  · show n.pos.y + n.size.y * (((slot_no + 1 : Int) : ℚ) + 1) / ((n.outputs_count : ℚ) + 1)
        - (n.pos.y + n.size.y * ((slot_no : ℚ) + 1) / ((n.outputs_count : ℚ) + 1))
        = n.size.y / ((n.outputs_count : ℚ) + 1)
    push_cast
    field_simp
    ring

/-- Witness for C8: the slot-position properties evaluated at `wNode`,
slot 0. -/
theorem Node_slot_positions_well_defined_witness :
    (0 ≤ wNode.inputs_count ∧ 0 ≤ wNode.outputs_count) ∧
    (((wNode.inputs_count : ℚ) + 1 ≠ 0 ∧ (wNode.outputs_count : ℚ) + 1 ≠ 0) ∧
     (0 ≤ (0 : Int) → (0 : Int) < wNode.inputs_count → 0 < wNode.size.y →
       (wNode.GetInputSlotPos 0).x = wNode.pos.x ∧
       wNode.pos.y < (wNode.GetInputSlotPos 0).y ∧
       (wNode.GetInputSlotPos 0).y < wNode.pos.y + wNode.size.y) ∧
     (0 ≤ (0 : Int) → (0 : Int) < wNode.outputs_count → 0 < wNode.size.y →
       (wNode.GetOutputSlotPos 0).x = wNode.pos.x + wNode.size.x ∧
       wNode.pos.y < (wNode.GetOutputSlotPos 0).y ∧
       (wNode.GetOutputSlotPos 0).y < wNode.pos.y + wNode.size.y) ∧
     ((wNode.GetInputSlotPos (0 + 1)).y - (wNode.GetInputSlotPos 0).y
         = wNode.size.y / ((wNode.inputs_count : ℚ) + 1) ∧
      (wNode.GetOutputSlotPos (0 + 1)).y - (wNode.GetOutputSlotPos 0).y
         = wNode.size.y / ((wNode.outputs_count : ℚ) + 1))) :=
  ⟨⟨by decide, by decide⟩,
   Node_slot_positions_well_defined wNode 0 (by decide) (by decide)⟩

/-- C4: `GetUberLayersDesc` covers exactly the eight material layers of the
glossary — every layer flag appears in exactly one entry of the table — and
every entry carries a non-empty list of input names. -/
theorem GetUberLayersDesc_covers_all_layers :
    (∀ l : Layers, (MaterialExplorer.GetUberLayersDesc.map Prod.fst).count l = 1) ∧
    (∀ d ∈ MaterialExplorer.GetUberLayersDesc, d.2 ≠ []) := by
  decide

/-- C7: every layer flag the constructor tests has a matching entry in
`GetUberLayersDesc`, so the `std::find_if` inside `find_layer` always finds
an element before it is dereferenced. -/
theorem find_layer_never_past_the_end :
    ∀ l : Layers,
      (MaterialExplorer.find_layer MaterialExplorer.GetUberLayersDesc l.flagVal).isSome = true := by
  decide

/-- The constructor's collection is, up to the order of the eight `if` tests,
the filter of `GetUberLayersDesc` by "flag set in the bitmask". -/
theorem collectLayers_perm_filter (mask : Nat) :
    (MaterialExplorer.collectLayers mask).Perm
      (MaterialExplorer.GetUberLayersDesc.filter fun d => mask &&& d.1.flagVal != 0) := by
  have hc : MaterialExplorer.collectLayers mask =
      (if mask &&& 1 ≠ 0 then
        [(kEmissionLayer, ["uberv2.emission.color"])] else []) ++
      (if mask &&& 2 ≠ 0 then
        [(kTransparencyLayer, ["uberv2.transparency"])] else []) ++
      (if mask &&& 4 ≠ 0 then
        [(kCoatingLayer, ["uberv2.coating.color", "uberv2.coating.ior"])] else []) ++
      (if mask &&& 8 ≠ 0 then
        [(kReflectionLayer,
          ["uberv2.reflection.color",
           "uberv2.reflection.roughness",
           "uberv2.reflection.anisotropy",
           "uberv2.reflection.anisotropy_rotation",
           "uberv2.reflection.ior",
           "uberv2.reflection.metalness"])] else []) ++
      (if mask &&& 16 ≠ 0 then
        [(kDiffuseLayer, ["uberv2.diffuse.color"])] else []) ++
      (if mask &&& 32 ≠ 0 then
        [(kRefractionLayer,
          ["uberv2.refraction.color",
           "uberv2.refraction.roughness",
           "uberv2.refraction.ior"])] else []) ++
      (if mask &&& 64 ≠ 0 then
        [(kSSSLayer,
          ["uberv2.sss.absorption_color",
           "uberv2.sss.scatter_color",
           "uberv2.sss.subsurface_color",
           "uberv2.sss.absorption_distance",
           "uberv2.sss.scatter_distance",
           "uberv2.sss.scatter_direction"])] else []) ++
      (if mask &&& 128 ≠ 0 then
        [(kShadingNormalLayer, ["uberv2.shading_normal"])] else []) := rfl
  have hblock : ∀ (v : Nat) (x : List MaterialExplorer.LayerDesc),
      (if mask &&& v ≠ 0 then x else []) = cond (mask &&& v != 0) x [] := by
    intro v x
    by_cases h : mask &&& v = 0
    · rw [if_neg (fun hne => hne h)]
      have hb : (mask &&& v != 0) = false := by simp [h]
      rw [hb]
      rfl
    · rw [if_pos h]
      have hb : (mask &&& v != 0) = true := by simp [h]
      rw [hb]
      rfl
  have hfb : ∀ (b : Bool) (a : MaterialExplorer.LayerDesc) (l : List MaterialExplorer.LayerDesc),
      (if b = true then a :: l else l) = cond b [a] [] ++ l := by
    intro b a l
    cases b <;> simp
  rw [hc]
  simp only [hblock]
  simp only [MaterialExplorer.GetUberLayersDesc, List.filter_cons, List.filter_nil,
    UberV2Material.Layers.flagVal]
  simp only [hfb, List.append_nil]
  generalize (mask &&& 1 != 0) = b1
  generalize (mask &&& 2 != 0) = b2
  generalize (mask &&& 4 != 0) = b3
  generalize (mask &&& 8 != 0) = b4
  generalize (mask &&& 16 != 0) = b5
  generalize (mask &&& 32 != 0) = b6
  generalize (mask &&& 64 != 0) = b7
  generalize (mask &&& 128 != 0) = b8
  revert b1 b2 b3 b4 b5 b6 b7 b8
  decide

/-- A duplicate-free list counts every element at most once (stated over any
lawful `BEq` instance). -/
theorem count_le_one_of_nodup {α : Type _} [BEq α] [LawfulBEq α]
    {l : List α} (h : l.Nodup) (a : α) : l.count a ≤ 1 := by
  induction l with
  | nil => simp
  | cons b t ih =>
    rcases List.nodup_cons.mp h with ⟨hb, ht⟩
    have hc := ih ht
    by_cases hba : a = b
    · subst hba
      have h0 : t.count a = 0 := List.count_eq_zero.mpr hb
      simp [List.count_cons, h0]
    · have hbeq : (b == a) = false := beq_eq_false_iff_ne.mpr (Ne.symm hba)
      simp [List.count_cons, hbeq]
      exact hc

/-- C1: the constructor builds `m_layers` as exactly the descriptors of
`GetUberLayersDesc` whose flag bit is set in `material->GetLayers()`: a
descriptor is a member of `m_layers` iff it is a table entry with its flag
set, and no descriptor appears more than once (so each selected descriptor
appears exactly once). -/
theorem constructor_collects_enabled_layers {IM : Type}
    (material : UberV2Material IM) (d : MaterialExplorer.LayerDesc) :
    (d ∈ (MaterialExplorer.init material).m_layers ↔
      d ∈ MaterialExplorer.GetUberLayersDesc ∧
        material.GetLayers &&& d.1.flagVal ≠ 0) ∧
    List.count d (MaterialExplorer.init material).m_layers ≤ 1 := by
  have hperm := collectLayers_perm_filter material.GetLayers
  have hm : (MaterialExplorer.init material).m_layers
      = MaterialExplorer.collectLayers material.GetLayers := rfl
  constructor
  · rw [hm, hperm.mem_iff, List.mem_filter]
    constructor
    · rintro ⟨hmem, hflag⟩
      exact ⟨hmem, by simpa [bne_iff_ne] using hflag⟩
    · rintro ⟨hmem, hflag⟩
      exact ⟨hmem, by simpa [bne_iff_ne] using hflag⟩
  · rw [hm]
    have hnodup : MaterialExplorer.GetUberLayersDesc.Nodup := by decide
    have hnd : (MaterialExplorer.collectLayers material.GetLayers).Nodup :=
      hperm.nodup_iff.mpr (hnodup.filter _)
    exact count_le_one_of_nodup hnd d

/-- `enumFrom` distributes over append, shifting the start index. -/
theorem enumFrom_append_eq (l1 : List String) :
    ∀ (n : Nat) (l2 : List String),
      List.enumFrom n (l1 ++ l2)
        = List.enumFrom n l1 ++ List.enumFrom (n + l1.length) l2 := by
  induction l1 with
  | nil => intro n l2; simp
  | cons a t ih =>
    intro n l2
    show (n, a) :: List.enumFrom (n + 1) (t ++ l2)
        = (n, a) :: (List.enumFrom (n + 1) t ++ List.enumFrom (n + (t.length + 1)) l2)
    rw [ih (n + 1) l2, show n + 1 + t.length = n + (t.length + 1) from by omega]

/-- The inner selectable loop draws one entry per input name, labelled with
consecutive ids starting at the incoming `selected_id`, and advances
`selected_id` by the number of inputs. -/
theorem drawInputs_spec (clicked : Nat → Bool) (l : List String) :
    ∀ s : LoopState,
      (drawInputs clicked l s).2 = List.enumFrom s.selected_id l ∧
      (drawInputs clicked l s).1.selected_id = s.selected_id + l.length := by
  induction l with
  | nil => intro s; exact ⟨rfl, rfl⟩
  | cons a t ih =>
    intro s
    have hs1 : (if clicked s.selected_id then
        { s with input_selected := (s.selected_id : Int), input_name := a }
      else s).selected_id = s.selected_id := by
      split <;> rfl
    constructor
    · show (s.selected_id, a) :: (drawInputs clicked t _).2 = _
      rw [(ih _).1]
      simp only [List.enumFrom, hs1]
    · show (drawInputs clicked t _).1.selected_id = _
      rw [(ih _).2]
      simp only [hs1, List.length_cons]
      omega

/-- The nested layers-list loop draws exactly the inputs of the collected
layers, flattened in order, with consecutive ids from the incoming
`selected_id`. -/
theorem drawLayers_spec (clicked : Nat → Bool) (ls : List MaterialExplorer.LayerDesc) :
    ∀ s : LoopState,
      (drawLayers clicked ls s).2
        = List.enumFrom s.selected_id ((ls.map Prod.snd).flatten) ∧
      (drawLayers clicked ls s).1.selected_id
        = s.selected_id + ((ls.map Prod.snd).flatten).length := by
  induction ls with
  | nil => intro s; exact ⟨rfl, rfl⟩
  | cons layer rest ih =>
    intro s
    have h1 := drawInputs_spec clicked layer.2 s
    have h2 := ih (drawInputs clicked layer.2 s).1
    constructor
    · show (drawInputs clicked layer.2 s).2 ++ (drawLayers clicked rest _).2 = _
      rw [h1.1, h2.1, h1.2]
      show _ = List.enumFrom s.selected_id (layer.2 ++ (rest.map Prod.snd).flatten)
      rw [enumFrom_append_eq]
    · show (drawLayers clicked rest _).1.selected_id = _
      rw [h2.2, h1.2]
      show _ = s.selected_id + (layer.2 ++ (rest.map Prod.snd).flatten).length
      rw [List.length_append]
      omega

/-- C6: the left-side layers list enumerates exactly the input names of the
collected layers — layers in `m_layers` order and, within a layer, inputs in
the descriptor's order — assigning consecutive selection indices 0, 1, 2, …
across all listed inputs: the `(id, label)` sequence of `Selectable` calls is
the enumeration of the flattened input-name list. -/
theorem layers_list_enumerates_inputs {IM : Type} (s : MaterialExplorer IM)
    (st : Statics) (fi : FrameInput) :
    (drawLayers fi.selectable_clicked s.m_layers
        { selected_id := 0, input_selected := st.input_selected, input_name := "" }).2
      = List.enum ((s.m_layers.map Prod.snd).flatten) := by
  have h := (drawLayers_spec fi.selectable_clicked s.m_layers
    { selected_id := 0, input_selected := st.input_selected, input_name := "" }).1
  rw [h]
  rfl

/-- One drag step never changes the scheme's originating tree or origin. -/
theorem dragStep_tree_origin {IM : Type} (fi : FrameInput) (idx : Nat)
    (node : GNode) (g : GraphScheme IM) :
    (dragStep fi idx node g).tree = g.tree ∧
    (dragStep fi idx node g).origin = g.origin := by
  unfold dragStep GraphScheme.UpdateNodePos
  split
  · exact ⟨rfl, rfl⟩
  · exact ⟨rfl, rfl⟩

/-- The whole node-display loop never changes the scheme's originating tree
or origin. -/
theorem dragLoop_tree_origin {IM : Type} (fi : FrameInput) (g : GraphScheme IM) :
    (dragLoop fi g).tree = g.tree ∧ (dragLoop fi g).origin = g.origin := by
  unfold dragLoop
  generalize g.GetNodes.enum = l
  induction l generalizing g with
  | nil => exact ⟨rfl, rfl⟩
  | cons p rest ih =>
    show ((rest.foldl (fun acc q => dragStep fi q.1 q.2 acc) (dragStep fi p.1 p.2 g)).tree = _) ∧ _
    rcases ih (dragStep fi p.1 p.2 g) with ⟨h1, h2⟩
    rcases dragStep_tree_origin fi p.1 p.2 g with ⟨h3, h4⟩
    exact ⟨h1.trans h3, h2.trans h4⟩

/-- C2: whenever an input is newly selected this frame (the clicked input's
name is non-empty and differs from `m_selected_input`), the graph is rebuilt
as `GraphScheme::Create` over `UberTree::Create` of that input's
`input_map_value` at position `int2(left_side_width + 10, 100)`, and
`m_selected_input` is set to that input's name — both in the rebuild step and
in the state `DrawExplorer` returns (whose graph still originates from that
`Create` call). -/
theorem rebuild_on_selection_change {IM : Type}
    (layout : UberTree IM → int2 → List GNode)
    (s : MaterialExplorer IM) (st : Statics) (fi : FrameInput)
    (h1 : clickedName s st fi ≠ "")
    (h2 : s.m_selected_input ≠ clickedName s st fi) :
    (rebuildPhase layout s (clickedName s st fi)).m_graph
        = some (GraphScheme.Create layout
            (UberTree.Create
              (s.m_material.GetInputValue (clickedName s st fi)).input_map_value)
            (int2.mk (left_side_width + 10) 100)) ∧
    (rebuildPhase layout s (clickedName s st fi)).m_selected_input
        = clickedName s st fi ∧
    (DrawExplorer layout s st fi).1.m_selected_input = clickedName s st fi ∧
    ∃ g, (DrawExplorer layout s st fi).1.m_graph = some g ∧
      g.tree = UberTree.Create
        (s.m_material.GetInputValue (clickedName s st fi)).input_map_value ∧
      g.origin = int2.mk (left_side_width + 10) 100 := by
  have hre : rebuildPhase layout s (clickedName s st fi)
      = { s with
          m_graph := some (GraphScheme.Create layout
            (UberTree.Create
              (s.m_material.GetInputValue (clickedName s st fi)).input_map_value)
            (int2.mk (left_side_width + 10) 100))
          m_selected_input := clickedName s st fi } := by
    unfold rebuildPhase
    rw [if_pos ⟨h1, h2⟩]
  have hD : (DrawExplorer layout s st fi).1
      = { rebuildPhase layout s (clickedName s st fi) with
          m_graph := dragPhase fi (rebuildPhase layout s (clickedName s st fi)).m_graph } :=
    rfl
  refine ⟨by rw [hre], by rw [hre], ?_, ?_⟩
  · rw [hD, hre]
  · rw [hD, hre]
    show ∃ g, dragPhase fi (some _) = some g ∧ _
    refine ⟨_, rfl, ?_, ?_⟩
    · exact (dragLoop_tree_origin fi _).1
    · exact (dragLoop_tree_origin fi _).2

/-- Witness for C2: in the frame `wFrameClick`, the diffuse color input of
`wExplorer` is newly selected and the graph is rebuilt over its input map. -/
theorem rebuild_on_selection_change_witness :
    clickedName wExplorer initialStatics wFrameClick ≠ "" ∧
    wExplorer.m_selected_input ≠ clickedName wExplorer initialStatics wFrameClick ∧
    ((rebuildPhase wLayout wExplorer (clickedName wExplorer initialStatics wFrameClick)).m_graph
        = some (GraphScheme.Create wLayout
            (UberTree.Create
              (wExplorer.m_material.GetInputValue
                (clickedName wExplorer initialStatics wFrameClick)).input_map_value)
            (int2.mk (left_side_width + 10) 100)) ∧
     (rebuildPhase wLayout wExplorer
        (clickedName wExplorer initialStatics wFrameClick)).m_selected_input
        = clickedName wExplorer initialStatics wFrameClick ∧
     (DrawExplorer wLayout wExplorer initialStatics wFrameClick).1.m_selected_input
        = clickedName wExplorer initialStatics wFrameClick ∧
     ∃ g, (DrawExplorer wLayout wExplorer initialStatics wFrameClick).1.m_graph = some g ∧
       g.tree = UberTree.Create
         (wExplorer.m_material.GetInputValue
           (clickedName wExplorer initialStatics wFrameClick)).input_map_value ∧
       g.origin = int2.mk (left_side_width + 10) 100) :=
  ⟨by decide, by decide,
   rebuild_on_selection_change wLayout wExplorer initialStatics wFrameClick
     (by decide) (by decide)⟩

/-- C3: when no input-selection change occurs this frame (nothing was clicked,
so the loop's `input_name` stays empty, or the clicked input's name equals
`m_selected_input`), `DrawExplorer` rebuilds nothing: the rebuild step is the
identity, `m_selected_input` is unchanged, and the `m_graph` field is not
reassigned — the returned graph is exactly the incoming graph as acted on by
the node-drag relay (null stays null; a present graph keeps its originating
tree and origin). -/
theorem no_rebuild_without_selection_change {IM : Type}
    (layout : UberTree IM → int2 → List GNode)
    (s : MaterialExplorer IM) (st : Statics) (fi : FrameInput)
    (h : clickedName s st fi = "" ∨ s.m_selected_input = clickedName s st fi) :
    rebuildPhase layout s (clickedName s st fi) = s ∧
    (DrawExplorer layout s st fi).1.m_selected_input = s.m_selected_input ∧
    (DrawExplorer layout s st fi).1.m_graph = dragPhase fi s.m_graph ∧
    (s.m_graph = none → (DrawExplorer layout s st fi).1.m_graph = none) ∧
    (∀ g, s.m_graph = some g →
      ∃ g2, (DrawExplorer layout s st fi).1.m_graph = some g2 ∧
        g2.tree = g.tree ∧ g2.origin = g.origin) := by
  have hre : rebuildPhase layout s (clickedName s st fi) = s := by
    unfold rebuildPhase
    rw [if_neg]
    rintro ⟨hne, hsel⟩
    rcases h with h | h
    · exact hne h
    · exact hsel h
  have hD : (DrawExplorer layout s st fi).1
      = { rebuildPhase layout s (clickedName s st fi) with
          m_graph := dragPhase fi (rebuildPhase layout s (clickedName s st fi)).m_graph } :=
    rfl
  refine ⟨hre, ?_, ?_, ?_, ?_⟩
  · rw [hD, hre]
  · rw [hD, hre]
  · intro hnone
    rw [hD, hre, hnone]
    rfl
  · intro g hg
    rw [hD, hre, hg]
    exact ⟨dragLoop fi g, rfl, (dragLoop_tree_origin fi g).1, (dragLoop_tree_origin fi g).2⟩

/-- Witness for C3: in the idle frame `wFrameIdle` nothing is clicked, so the
explorer's selection and (null) graph are unchanged. -/
theorem no_rebuild_without_selection_change_witness :
    (clickedName wExplorer initialStatics wFrameIdle = "" ∨
      wExplorer.m_selected_input = clickedName wExplorer initialStatics wFrameIdle) ∧
    (rebuildPhase wLayout wExplorer (clickedName wExplorer initialStatics wFrameIdle)
        = wExplorer ∧
     (DrawExplorer wLayout wExplorer initialStatics wFrameIdle).1.m_selected_input
        = wExplorer.m_selected_input ∧
     (DrawExplorer wLayout wExplorer initialStatics wFrameIdle).1.m_graph
        = dragPhase wFrameIdle wExplorer.m_graph ∧
     (wExplorer.m_graph = none →
       (DrawExplorer wLayout wExplorer initialStatics wFrameIdle).1.m_graph = none) ∧
     (∀ g, wExplorer.m_graph = some g →
       ∃ g2, (DrawExplorer wLayout wExplorer initialStatics wFrameIdle).1.m_graph = some g2 ∧
         g2.tree = g.tree ∧ g2.origin = g.origin)) :=
  ⟨Or.inl (by decide),
   no_rebuild_without_selection_change wLayout wExplorer initialStatics wFrameIdle
     (Or.inl (by decide))⟩

/-- C5: when a displayed node is active and the left mouse button is being
dragged, the iteration relays the edit into the shared graph model via
`m_graph->UpdateNodePos(node.id, new_pos)` with `new_pos` the node's position
plus the integer-truncated mouse delta — and in the resulting scheme every
node carrying that id sits at the new position. -/
theorem drag_updates_node_position {IM : Type} (fi : FrameInput)
    (g : GraphScheme IM) (idx : Nat) (node : GNode)
    (hact : fi.item_active idx = true)
    (hdrag : fi.mouse_dragging_left = true) :
    dragStep fi idx node g
      = g.UpdateNodePos node.id
          (int2.mk (node.pos.x + cppTrunc fi.mouse_delta.x)
                   (node.pos.y + cppTrunc fi.mouse_delta.y)) ∧
    ∀ n ∈ (dragStep fi idx node g).nodes, n.id = node.id →
      n.pos = int2.mk (node.pos.x + cppTrunc fi.mouse_delta.x)
                      (node.pos.y + cppTrunc fi.mouse_delta.y) := by
  have hstep : dragStep fi idx node g
      = g.UpdateNodePos node.id
          (int2.mk (node.pos.x + cppTrunc fi.mouse_delta.x)
                   (node.pos.y + cppTrunc fi.mouse_delta.y)) := by
    unfold dragStep
    rw [if_pos ⟨hact, hdrag⟩]
  refine ⟨hstep, ?_⟩
  intro n hn hid
  rw [hstep] at hn
  unfold GraphScheme.UpdateNodePos at hn
  rcases List.mem_map.mp hn with ⟨m, hm, hfm⟩
  by_cases hmid : m.id = node.id
  · rw [if_pos hmid] at hfm
    rw [← hfm]
  · rw [if_neg hmid] at hfm
    rw [← hfm] at hid
    exact absurd hid hmid

/-- Witness for C5: dragging the single node of `wGraph` by (3, 4) moves it
from (2, 3) to (5, 7) in the shared graph model. -/
theorem drag_updates_node_position_witness :
    wFrameDrag.item_active 0 = true ∧ wFrameDrag.mouse_dragging_left = true ∧
    (dragStep wFrameDrag 0 { id := 1, pos := int2.mk 2 3, size := int2.mk 10 10 } wGraph
        = wGraph.UpdateNodePos 1
            (int2.mk (2 + cppTrunc wFrameDrag.mouse_delta.x)
                     (3 + cppTrunc wFrameDrag.mouse_delta.y)) ∧
     ∀ n ∈ (dragStep wFrameDrag 0
        { id := 1, pos := int2.mk 2 3, size := int2.mk 10 10 } wGraph).nodes,
       n.id = 1 →
       n.pos = int2.mk (2 + cppTrunc wFrameDrag.mouse_delta.x)
                       (3 + cppTrunc wFrameDrag.mouse_delta.y)) :=
  ⟨by decide, by decide,
   drag_updates_node_position wFrameDrag wGraph 0
     { id := 1, pos := int2.mk 2 3, size := int2.mk 10 10 } (by decide) (by decide)⟩

/-- The rebuild step never touches `m_material` or `m_layers`. -/
theorem rebuildPhase_material_layers {IM : Type}
    (layout : UberTree IM → int2 → List GNode)
    (s : MaterialExplorer IM) (input_name : String) :
    (rebuildPhase layout s input_name).m_material = s.m_material ∧
    (rebuildPhase layout s input_name).m_layers = s.m_layers := by
  unfold rebuildPhase
  split
  · exact ⟨rfl, rfl⟩
  · exact ⟨rfl, rfl⟩

/-- C9: `DrawExplorer` never modifies `m_material` or `m_layers`: across
every frame, the material and the layer descriptors collected at
construction are returned unchanged (only `m_graph` and `m_selected_input`
— the explorer's two other fields — can differ). -/
theorem drawExplorer_preserves_material_and_layers {IM : Type}
    (layout : UberTree IM → int2 → List GNode)
    (s : MaterialExplorer IM) (st : Statics) (fi : FrameInput) :
    (DrawExplorer layout s st fi).1.m_material = s.m_material ∧
    (DrawExplorer layout s st fi).1.m_layers = s.m_layers := by
  have hD : (DrawExplorer layout s st fi).1
      = { rebuildPhase layout s (clickedName s st fi) with
          m_graph := dragPhase fi (rebuildPhase layout s (clickedName s st fi)).m_graph } :=
    rfl
  rw [hD]
  exact rebuildPhase_material_layers layout s (clickedName s st fi)
